import Mathlib

/-!
Verification development for the email ingestion pipeline in
`src/infrastructure/lambda/email_processor.py`.

The Python source is shallowly embedded: every function of the pipeline is
translated into an executable Lean definition.  External collaborators from
the Python standard library and AWS SDK (`email.utils.parseaddr`,
`parsedate_to_datetime`, `datetime.fromisoformat`, the `re` module, S3,
DynamoDB, SES) are passed in as explicit parameters or modelled as explicit
state, so that all control flow of the repository code itself is captured.
-/

namespace EmailSetup

/-! ## MIME message tree

Models `email.message.Message`: a message is either a leaf part carrying a
decoded payload (`get_payload(decode=True)`), or a multipart container with
an ordered list of sub-parts.  Bytes are modelled as `List Nat` (each < 256).
-/

inductive MimePart where
  | leaf (ctype : String) (disposition : Option String) (filename : Option String)
      (payload : List Nat)
  | multi (ctype : String) (parts : List MimePart)

/-- `Message.is_multipart()`. -/
def MimePart.is_multipart : MimePart → Bool
  | .leaf _ _ _ _ => false
  | .multi _ _ => true

/-- `Message.get_content_type()` (already lower-cased by the stdlib). -/
def MimePart.get_content_type : MimePart → String
  | .leaf c _ _ _ => c
  | .multi c _ => c

/-- `Message.get_content_disposition()`; containers report none. -/
def MimePart.get_content_disposition : MimePart → Option String
  | .leaf _ d _ _ => d
  | .multi _ _ => none

/-- `Message.get_filename()`. -/
def MimePart.get_filename : MimePart → Option String
  | .leaf _ _ f _ => f
  | .multi _ _ => none

/-- `Message.get_payload(decode=True)`: decoded bytes on a leaf, None on a
multipart container. -/
def MimePart.get_payload_decoded : MimePart → Option (List Nat)
  | .leaf _ _ _ p => some p
  | .multi _ _ => none

mutual

/-- `Message.walk()`: depth-first pre-order traversal — the part itself,
then (for containers) each sub-part recursively. -/
def MimePart.walk : MimePart → List MimePart
  | .leaf c d f p => [.leaf c d f p]
  | .multi c ps => .multi c ps :: MimePart.walkList ps

def MimePart.walkList : List MimePart → List MimePart
  | [] => []
  | p :: ps => p.walk ++ MimePart.walkList ps

end

/-! ## UTF-8 decoding

Models `bytes.decode(utf8)` with the two stdlib error handlers used by the
source and by the specification: `replace = false` is the errors=ignore
handler (invalid maximal subparts are dropped), `replace = true` is the
errors=replace handler (each invalid maximal subpart becomes U+FFFD).
-/

/-- Continuation-byte range check. -/
def contByte (lo hi b : Nat) : Bool := lo ≤ b && b ≤ hi

/-- The error output for one invalid maximal subpart: U+FFFD under
errors=replace, nothing under errors=ignore. -/
def utf8_err (replace : Bool) : List Char :=
  if replace then [Char.ofNat 0xFFFD] else []

/-- Dispatch one lead byte: emitted characters plus the pending-sequence
state `(accumulated bits, continuations still needed, low/high bound for
the next continuation byte)`, `none` when no sequence is pending. -/
def utf8_start (replace : Bool) (b : Nat) : List Char × Option (Nat × Nat × Nat × Nat) :=
  if b < 0x80 then ([Char.ofNat b], none)
  else if 0xC2 ≤ b && b ≤ 0xDF then ([], some (b - 0xC0, 1, 0x80, 0xBF))
  else if 0xE0 ≤ b && b ≤ 0xEF then
    ([], some (b - 0xE0, 2, if b = 0xE0 then 0xA0 else 0x80, if b = 0xED then 0x9F else 0xBF))
  else if 0xF0 ≤ b && b ≤ 0xF4 then
    ([], some (b - 0xF0, 3, if b = 0xF0 then 0x90 else 0x80, if b = 0xF4 then 0x8F else 0xBF))
  else (utf8_err replace, none)

/-- Byte-at-a-time decode loop, following the standard maximal-subpart
algorithm the Python codec implements: an invalid lead byte is consumed
alone; a truncated or broken sequence is consumed up to (not including)
the first offending byte, which is then re-dispatched as a fresh lead. -/
def utf8_run (replace : Bool) (state : Option (Nat × Nat × Nat × Nat)) :
    List Nat → List Char
  | [] =>
    match state with
    | none => []
    | some _ => utf8_err replace
  | b :: rest =>
    match state with
    | none =>
      let s := utf8_start replace b
      s.1 ++ utf8_run replace s.2 rest
    | some (acc, needed, lo, hi) =>
      if contByte lo hi b then
        if needed = 1 then
          Char.ofNat (acc * 0x40 + (b - 0x80)) :: utf8_run replace none rest
        else utf8_run replace (some (acc * 0x40 + (b - 0x80), needed - 1, 0x80, 0xBF)) rest
      else
        let s := utf8_start replace b
        utf8_err replace ++ s.1 ++ utf8_run replace s.2 rest

/-- Decode a full byte sequence starting with no pending state. -/
def utf8_decode_aux (replace : Bool) (bs : List Nat) : List Char :=
  utf8_run replace none bs

/-- `bytes.decode(utf8, errors)` with `replace = false` for errors=ignore. -/
def py_decode_utf8 (replace : Bool) (bs : List Nat) : String :=
  String.mk (utf8_decode_aux replace bs)

/-! ## Content extraction (source lines 282–337) -/

/-- The loop body shared by `extract_text_content` / `extract_html_content`
on the multipart branch: first part in `walk()` order whose content type
matches and whose decoded payload is truthy (non-empty). -/
def first_content (ctype : String) (parts : List MimePart) : Option (List Nat) :=
  parts.findSome? fun p =>
    if p.get_content_type = ctype then
      match p.get_payload_decoded with
      | some payload => if payload.isEmpty then none else some payload
      | none => none
    else none

/-- `extract_text_content` (lines 282–299): payload of the first
`text/plain` part with truthy payload, decoded with errors=ignore. -/
def extract_text_content (m : MimePart) : String :=
  if m.is_multipart then
    match first_content "text/plain" m.walk with
    | some payload => py_decode_utf8 false payload
    | none => ""
  else
    if m.get_content_type = "text/plain" then
      match m.get_payload_decoded with
      | some payload => if payload.isEmpty then "" else py_decode_utf8 false payload
      | none => ""
    else ""

/-- `extract_html_content` (lines 301–318). -/
def extract_html_content (m : MimePart) : String :=
  if m.is_multipart then
    match first_content "text/html" m.walk with
    | some payload => py_decode_utf8 false payload
    | none => ""
  else
    if m.get_content_type = "text/html" then
      match m.get_payload_decoded with
      | some payload => if payload.isEmpty then "" else py_decode_utf8 false payload
      | none => ""
    else ""

/-- Attachment descriptor collected by `extract_attachments_info`. -/
structure AttachmentInfo where
  filename : String
  content_type : String
  size : Nat
deriving DecidableEq, Repr

/-- `extract_attachments_info` (lines 320–337): on a multipart message,
every walked part with disposition attachment and a filename; a
single-part message yields no attachments (no walk happens). -/
def extract_attachments_info (m : MimePart) : List AttachmentInfo :=
  if m.is_multipart then
    m.walk.filterMap fun p =>
      if p.get_content_disposition = some "attachment" then
        match p.get_filename with
        | some fn =>
            some { filename := fn, content_type := p.get_content_type,
                   size := (p.get_payload_decoded.getD []).length }
        | none => none
      else none
  else []

/-! ## Python dict values and truthiness

The DynamoDB item built at lines 241–263 is a Python dict mapping string
keys to heterogeneous values; the sparse filter at line 266 keeps exactly
the truthy ones.  We model values with an inductive type covering the
kinds the source actually stores, with Python truthiness.
-/

inductive Val where
  | str (s : String)
  | num (n : Nat)
  | boolean (b : Bool)
  | attach_list (l : List AttachmentInfo)
  | pynone
deriving DecidableEq, Repr

/-- Python truthiness for the stored value kinds. -/
def Val.truthy : Val → Bool
  | .str s => s != ""
  | .num n => n != 0
  | .boolean b => b
  | .attach_list l => !l.isEmpty
  | .pynone => false

/-- Association-list lookup (first binding wins), modelling dict access. -/
def assoc_get {α : Type} (k : String) (l : List (String × α)) : Option α :=
  (l.find? fun kv => kv.1 == k).map (·.2)

/-- Keyed upsert, modelling `d[k] = v` / a keyed `put` to a store: at most
one binding per key afterwards. -/
def assoc_put {α : Type} (k : String) (v : α) (l : List (String × α)) :
    List (String × α) :=
  (l.filter fun kv => kv.1 != k) ++ [(k, v)]

/-! ## Manifest data model and merge (source lines 339–404) -/

/-- One element of `manifest[emails]` as built at lines 365–374. -/
structure ManifestEntry where
  messageId : String
  timestamp : String
  s3_key : String
  subject : String
  fromAddr : String
  toAddr : String
  size : Nat
  has_attachments : Bool
deriving DecidableEq, Repr

/-- The per-day manifest JSON object. -/
structure Manifest where
  emails : List ManifestEntry
  last_updated : String
  date : String
  email_count : Nat
deriving DecidableEq, Repr

/-- The fresh manifest built when no object exists yet (line 359); the
source dict has no email_count key until the merge sets it, modelled as 0. -/
def empty_manifest (date_str : String) : Manifest :=
  { emails := [], last_updated := "", date := date_str, email_count := 0 }

/-- Python string comparison: lexicographic on code points. -/
def charlist_lt : List Char → List Char → Bool
  | [], [] => false
  | [], _ :: _ => true
  | _ :: _, [] => false
  | a :: as, b :: bs =>
    if a.toNat < b.toNat then true
    else if b.toNat < a.toNat then false
    else charlist_lt as bs

/-- `a < b` on Python strings. -/
def pystr_lt (a b : String) : Bool := charlist_lt a.data b.data

/-- One step of Python `list.sort(key=timestamp, reverse=True)`: insert `e`
before the first strictly-smaller timestamp, after all greater-or-equal
ones — the stable descending order Python produces. -/
def insert_desc (e : ManifestEntry) : List ManifestEntry → List ManifestEntry
  | [] => [e]
  | x :: xs =>
    if pystr_lt x.timestamp e.timestamp then e :: x :: xs else x :: insert_desc e xs

/-- Stable sort by `timestamp` descending (line 385); timestamps are
compared as strings, exactly as the JSON-loaded Python values are. -/
def sort_by_timestamp_desc (l : List ManifestEntry) : List ManifestEntry :=
  l.foldl (fun acc e => insert_desc e acc) []

/-- Lines 376–385: drop any entry with the same messageId, append the new
entry, stamp `last_updated`, recompute `email_count`, sort by timestamp
descending. -/
def manifest_merge (now : String) (m : Manifest) (entry : ManifestEntry) : Manifest :=
  let deduped := m.emails.filter fun e => e.messageId != entry.messageId
  let appended := deduped ++ [entry]
  { m with
    emails := sort_by_timestamp_desc appended,
    last_updated := now,
    email_count := appended.length }

/-! ## Effect model for the AWS collaborators

Store contents are explicit association lists; whether an individual AWS
call raises is an input (the oracle), so every theorem quantifies over
arbitrary failure patterns.
-/

/-- An object in the S3 bucket as written by `put_object`. -/
structure BlobObject where
  body : List Nat
  content_type : String
  metadata : List (String × String)
deriving DecidableEq, Repr

/-- Failure pattern and wall-clock readings for one `process_email` run. -/
structure EffectOracle where
  blob_put_fails : Bool
  index_put_fails : Bool
  manifest_read_fails : Bool
  manifest_put_fails : Bool
  send_raw_fails : Bool
  processed_at : String
  manifest_now : String

/-- Whole-system state threaded through the pipeline. -/
structure SysState where
  blob_store : List (String × BlobObject)
  index_store : List (String × List (String × Val))
  manifest_store : List (String × Manifest)
  forward_calls : List (String × String)

/-- Python stdlib collaborators, passed in explicitly:
`parseaddr` returns the (display name, address) split;
`parsedate_iso` is `parsedate_to_datetime` composed with `isoformat`,
`none` when the parse raises ValueError/TypeError;
`iso_to_date` is `datetime.fromisoformat` composed with
`strftime(Y-m-d)`, `none` when `fromisoformat` raises;
`re_match` is `re.match(pattern, string, re.IGNORECASE)` truthiness. -/
structure PyLib where
  parseaddr : String → String × String
  parsedate_iso : String → Option String
  iso_to_date : String → Option String
  re_match : String → String → Bool

/-- A configured forwarding rule. -/
structure ForwardingRule where
  pattern : String
  forward_to : String
deriving DecidableEq, Repr

/-- Process configuration from the environment. -/
structure EnvCfg where
  domain_name : Option String
  forwarding_rules : List ForwardingRule

/-! ## The pipeline functions (source lines 172–280, 339–439) -/

/-- Lines 200–206: overwrite the event timestamp with the parsed `Date`
header when the header is present and parses; ValueError/TypeError from
the parse is swallowed, keeping the event timestamp. -/
def resolve_timestamp (parsedate_iso : String → Option String)
    (date_header timestamp : String) : String :=
  if date_header != "" then
    match parsedate_iso date_header with
    | some iso => iso
    | none => timestamp
  else timestamp

/-- Python `s.endswith(suffix)`. -/
def py_endswith (s suffix : String) : Bool :=
  s.data.reverse.take suffix.data.length == suffix.data.reverse

/-- Python `s.replace(old, new)` for a one-character `old` (the only form
the source uses): replace every occurrence. -/
def charlist_replace_char (old : Char) (new : List Char) : List Char → List Char
  | [] => []
  | c :: rest =>
    if c = old then new ++ charlist_replace_char old new rest
    else c :: charlist_replace_char old new rest

/-- String wrapper for `charlist_replace_char`. -/
def py_replace_char (s : String) (old : Char) (new : String) : String :=
  String.mk (charlist_replace_char old new.data s.data)

/-- Python `s.split(sep)` for a one-character separator (the only form the
source uses). -/
def charlist_split (sep : Char) : List Char → List (List Char)
  | [] => [[]]
  | c :: rest =>
    let r := charlist_split sep rest
    if c = sep then [] :: r
    else
      match r with
      | h :: t => (c :: h) :: t
      | [] => [[c]]

/-- String wrapper for `charlist_split`. -/
def py_split_char (s : String) (sep : Char) : List String :=
  (charlist_split sep s.data).map String.mk

/-- Lines 208–213: derive the partition date from the resolved timestamp;
`none` models `fromisoformat` raising (which aborts the message). -/
def derive_date_str (iso_to_date : String → Option String) (timestamp : String) :
    Option String :=
  if py_endswith timestamp "Z" then
    iso_to_date (py_replace_char timestamp 'Z' "+00:00")
  else iso_to_date timestamp

/-- The S3 object metadata written with the canonical blob (lines 231–237):
the only place any truncation to 1000 characters happens. -/
def blob_metadata (message_id subject from_addr to_addr date_str : String) :
    List (String × String) :=
  [("messageId", message_id),
   ("subject", subject.take 1000),
   ("from", from_addr.take 1000),
   ("to", to_addr.take 1000),
   ("date", date_str)]

/-- The DynamoDB item as built at lines 241–263, before the sparse filter,
in source order. -/
def build_metadata_item (message_id timestamp date_str subject from_addr to_addr
    cc_addr bcc_addr reply_to sender_email recipient_email processed_key : String)
    (email_size : Nat) (attachments : List AttachmentInfo)
    (body_text body_html processed_at : String) (domain : Option String) :
    List (String × Val) :=
  [("messageId", .str message_id),
   ("timestamp", .str timestamp),
   ("date", .str date_str),
   ("subject", .str subject),
   ("from", .str from_addr),
   ("to", .str to_addr),
   ("cc", .str cc_addr),
   ("bcc", .str bcc_addr),
   ("reply_to", .str reply_to),
   ("sender_email", .str sender_email),
   ("recipient_email", .str recipient_email),
   ("recipient", .str recipient_email),
   ("s3_key", .str processed_key),
   ("size", .num email_size),
   ("has_attachments", .boolean (decide (attachments.length > 0))),
   ("attachment_count", .num attachments.length),
   ("attachments", .attach_list attachments),
   ("body_text_preview", .str (if body_text != "" then body_text.take 500 else "")),
   ("body_html_preview", .str (if body_html != "" then body_html.take 500 else "")),
   ("processed_at", .str processed_at),
   ("domain", match domain with | some d => .str d | none => .pynone)]

/-- Line 266: `{k: v for k, v in metadata_item.items() if v}`. -/
def sparse_filter (item : List (String × Val)) : List (String × Val) :=
  item.filter fun kv => kv.2.truthy

/-- `metadata.get(k, default)` for string values. -/
def val_get_str (metadata : List (String × Val)) (k dflt : String) : String :=
  match assoc_get k metadata with
  | some (.str s) => s
  | _ => dflt

/-- `metadata.get(k, default)` for numeric values. -/
def val_get_num (metadata : List (String × Val)) (k : String) (dflt : Nat) : Nat :=
  match assoc_get k metadata with
  | some (.num n) => n
  | _ => dflt

/-- `metadata.get(k, default)` for boolean values. -/
def val_get_bool (metadata : List (String × Val)) (k : String) (dflt : Bool) : Bool :=
  match assoc_get k metadata with
  | some (.boolean b) => b
  | _ => dflt

/-- `create_manifest_entry` (lines 339–404).  Every failure inside is
caught by the outer try/except, so the function is total and returns the
(possibly unchanged) manifest store — it never raises to the caller:
a malformed date (the unpack of `split` at line 349), a read error
(treated as an absent manifest, lines 360–362), a KeyError on
`metadata[timestamp]`/`metadata[s3_key]`, or a failed `put_object`
each leave the store as it was or fall back as the source does. -/
def create_manifest_entry (oracle : EffectOracle) (date_str message_id : String)
    (metadata : List (String × Val)) (store : List (String × Manifest)) :
    List (String × Manifest) :=
  match py_split_char date_str ('-') with
  | [year, month, day] =>
    let manifest_key := "manifest/" ++ year ++ "/" ++ month ++ "/" ++ day ++ "/manifest.json"
    let manifest :=
      if oracle.manifest_read_fails then empty_manifest date_str
      else match assoc_get manifest_key store with
        | some m => m
        | none => empty_manifest date_str
    match assoc_get "timestamp" metadata, assoc_get "s3_key" metadata with
    | some (.str ts), some (.str sk) =>
      let entry : ManifestEntry :=
        { messageId := message_id, timestamp := ts, s3_key := sk,
          subject := val_get_str metadata "subject" "",
          fromAddr := val_get_str metadata "from" "",
          toAddr := val_get_str metadata "to" "",
          size := val_get_num metadata "size" 0,
          has_attachments := val_get_bool metadata "has_attachments" false }
      let merged := manifest_merge oracle.manifest_now manifest entry
      if oracle.manifest_put_fails then store else assoc_put manifest_key merged store
    | _, _ => store
  | _ => store

/-- `forward_email_if_matched` (lines 407–439): walk the rules in order;
on the first regex match invoke `send_raw_email` with the original
recipient as source, then break.  The send itself may fail, which is
caught and logged, so the invocation list records the attempt either way.
Returns the list of (source, destination) pairs passed to SES. -/
def forward_email_if_matched (re_match : String → String → Bool) :
    List ForwardingRule → String → List (String × String)
  | [], _ => []
  | rule :: rest, recipient =>
    if re_match rule.pattern recipient then [(recipient, rule.forward_to)]
    else forward_email_if_matched re_match rest recipient

/-- The header fields and canonical bytes of one parsed message.
`none` models an absent header (`email_obj.get` returning the default). -/
structure EmailMsg where
  subject : Option String
  fromHdr : Option String
  toHdr : Option String
  dateHdr : Option String
  replyTo : Option String
  ccHdr : Option String
  bccHdr : Option String
  root : MimePart
  raw : List Nat

/-- Errors `process_email` propagates to its caller. -/
inductive ProcErr where
  | store_error
  | date_error
deriving DecidableEq, Repr

/-- `process_email` (lines 172–280).  Returns the state as mutated so far
plus `some e` when an uncaught exception propagates (a fatal store write
or an unparseable resolved timestamp); manifest maintenance and
forwarding failures are contained and never produce an error. -/
def process_email (lib : PyLib) (cfg : EnvCfg) (oracle : EffectOracle)
    (msg : EmailMsg) (message_id timestamp source : String)
    (destinations : List String) (st : SysState) : SysState × Option ProcErr :=
  let subject := msg.subject.getD ""
  let from_addr := msg.fromHdr.getD source
  let to_addr := msg.toHdr.getD (String.intercalate ", " destinations)
  let date_header := msg.dateHdr.getD ""
  let reply_to := msg.replyTo.getD ""
  let cc_addr := msg.ccHdr.getD ""
  let bcc_addr := msg.bccHdr.getD ""
  let sender_email := (lib.parseaddr from_addr).2
  let recipient_email := (lib.parseaddr to_addr).2
  let timestamp := resolve_timestamp lib.parsedate_iso date_header timestamp
  match derive_date_str lib.iso_to_date timestamp with
  | none => (st, some .date_error)
  | some date_str =>
    let body_text := extract_text_content msg.root
    let body_html := extract_html_content msg.root
    let attachments := extract_attachments_info msg.root
    let email_size := msg.raw.length
    let processed_key := "processed/" ++ date_str ++ "/" ++ message_id ++ ".eml"
    if oracle.blob_put_fails then (st, some .store_error) else
    let blob_obj : BlobObject :=
      { body := msg.raw, content_type := "message/rfc822",
        metadata := blob_metadata message_id subject from_addr to_addr date_str }
    let st := { st with blob_store := assoc_put processed_key blob_obj st.blob_store }
    let metadata_item := sparse_filter (build_metadata_item message_id timestamp
      date_str subject from_addr to_addr cc_addr bcc_addr reply_to sender_email
      recipient_email processed_key email_size attachments body_text body_html
      oracle.processed_at cfg.domain_name)
    if oracle.index_put_fails then (st, some .store_error) else
    let st := { st with index_store := assoc_put message_id metadata_item st.index_store }
    let st := { st with manifest_store :=
      create_manifest_entry oracle date_str message_id metadata_item st.manifest_store }
    let st := { st with forward_calls := st.forward_calls ++
      forward_email_if_matched lib.re_match cfg.forwarding_rules recipient_email }
    (st, none)

/-! ## Interleaving model for concurrent manifest updates

A `create_manifest_entry` invocation touches the shared manifest object
exactly twice: the `get_object` (lines 355–362) and the unconditional
`put_object` (lines 388–398); the merge in between is local.  A schedule
interleaves these atomic store accesses of several invocations.  The
source has no version token, no conditional write and no retry, so the
write step always overwrites the shared object with the merge of whatever
that invocation read earlier.
-/

/-- One concurrent invocation: its message id, the entry it merges (built
from its own metadata), its date, and its wall-clock reading. -/
structure NaiveProc where
  date_str : String
  message_id : String
  entry : ManifestEntry
  now : String

/-- An atomic store access of invocation `i`. -/
inductive SchedStep where
  | read (i : Nat)
  | write (i : Nat)
deriving DecidableEq, Repr

/-- Shared object plus each invocation's local copy of what it read
(`none` = has not read yet). -/
structure RaceState where
  store : Option Manifest
  locals : List (Option Manifest)

/-- Execute one scheduled access: a read stores the current object (or the
fresh empty manifest, per the NoSuchKey branch) into the invocation's
local state; a write overwrites the shared object, unconditionally, with
the merge of the previously read local state. -/
def race_step (procs : List NaiveProc) (s : RaceState) : SchedStep → RaceState
  | .read i =>
    match procs.get? i with
    | some p => { s with locals := s.locals.set i (some (s.store.getD (empty_manifest p.date_str))) }
    | none => s
  | .write i =>
    match procs.get? i, s.locals.get? i with
    | some p, some (some m) =>
        { s with store := some (manifest_merge p.now m p.entry) }
    | _, _ => s

/-- Run a whole schedule from an absent manifest object. -/
def race_run (procs : List NaiveProc) (sched : List SchedStep) : RaceState :=
  sched.foldl (race_step procs) { store := none, locals := List.replicate procs.length none }

/-- A schedule is a legal interleaving of `n` two-step invocations when
each invocation reads exactly once, writes exactly once, and reads before
it writes. -/
def valid_two_phase (n : Nat) (sched : List SchedStep) : Bool :=
  sched.length == 2 * n &&
  (List.range n).all fun i =>
    sched.count (.read i) == 1 && sched.count (.write i) == 1 &&
    sched.indexOf (SchedStep.read i) < sched.indexOf (SchedStep.write i)

/-- Does the final shared manifest contain an entry for `mid`? -/
def race_has_entry (s : RaceState) (mid : String) : Bool :=
  match s.store with
  | some m => m.emails.any fun e => e.messageId == mid
  | none => false

/-! ## Helper lemmas about the sort, the merge and the stores -/

theorem insert_desc_perm (e : ManifestEntry) (l : List ManifestEntry) :
    (insert_desc e l).Perm (e :: l) := by
  induction l with
  | nil => simp [insert_desc]
  | cons x xs ih =>
    simp only [insert_desc]
    split
    · exact List.Perm.refl _
    · exact (ih.cons x).trans (List.Perm.swap e x xs)

theorem sort_foldl_perm (l acc : List ManifestEntry) :
    (l.foldl (fun a e => insert_desc e a) acc).Perm (acc ++ l) := by
  induction l generalizing acc with
  | nil => simp
  | cons e l ih =>
    simp only [List.foldl_cons]
    have h1 := ih (insert_desc e acc)
    have h2 : (insert_desc e acc ++ l).Perm ((e :: acc) ++ l) :=
      (insert_desc_perm e acc).append_right l
    have h3 : ((e :: acc) ++ l).Perm (acc ++ e :: l) := by
      have hm : (acc ++ e :: l).Perm (e :: (acc ++ l)) := List.perm_middle
      simpa using hm.symm
    exact (h1.trans h2).trans h3

theorem sort_by_timestamp_desc_perm (l : List ManifestEntry) :
    (sort_by_timestamp_desc l).Perm l := by
  simpa [sort_by_timestamp_desc] using sort_foldl_perm l []

theorem charlist_lt_asymm (l₁ l₂ : List Char) (h : charlist_lt l₁ l₂ = true) :
    charlist_lt l₂ l₁ = false := by
  induction l₁ generalizing l₂ with
  | nil =>
    cases l₂ with
    | nil => simp [charlist_lt] at h
    | cons b bs => simp [charlist_lt]
  | cons a as ih =>
    cases l₂ with
    | nil => simp [charlist_lt] at h
    | cons b bs =>
      simp only [charlist_lt] at h ⊢
      by_cases hab : a.toNat < b.toNat
      · simp only [hab, if_true] at h ⊢
        have hba : ¬b.toNat < a.toNat := by omega
        simp [hba, hab]
      · by_cases hba : b.toNat < a.toNat
        · simp [hab, hba] at h
        · simp only [hab, hba, if_false] at h ⊢
          exact ih bs h

theorem charlist_lt_trans (l₁ l₂ l₃ : List Char) (h12 : charlist_lt l₁ l₂ = true)
    (h23 : charlist_lt l₂ l₃ = true) : charlist_lt l₁ l₃ = true := by
  induction l₁ generalizing l₂ l₃ with
  | nil =>
    cases l₂ with
    | nil => simp [charlist_lt] at h12
    | cons b bs =>
      cases l₃ with
      | nil => simp [charlist_lt] at h23
      | cons c cs => simp [charlist_lt]
  | cons a as ih =>
    cases l₂ with
    | nil => simp [charlist_lt] at h12
    | cons b bs =>
      cases l₃ with
      | nil => simp [charlist_lt] at h23
      | cons c cs =>
        simp only [charlist_lt] at h12 h23 ⊢
        by_cases hab : a.toNat < b.toNat
        · by_cases hbc : b.toNat < c.toNat
          · have : a.toNat < c.toNat := by omega
            simp [this]
          · by_cases hcb : c.toNat < b.toNat
            · simp [hbc, hcb] at h23
            · have : a.toNat < c.toNat := by omega
              simp [this]
        · by_cases hba : b.toNat < a.toNat
          · simp [hab, hba] at h12
          · have hab2 : a.toNat = b.toNat := by omega
            by_cases hbc : b.toNat < c.toNat
            · have : a.toNat < c.toNat := by omega
              simp [this]
            · by_cases hcb : c.toNat < b.toNat
              · simp [hbc, hcb] at h23
              · have hac : ¬a.toNat < c.toNat := by omega
                have hca : ¬c.toNat < a.toNat := by omega
                simp only [hab, hba, if_false] at h12
                simp only [hbc, hcb, if_false] at h23
                simp only [hac, hca, if_false]
                exact ih bs cs h12 h23

theorem pystr_lt_asymm (a b : String) (h : pystr_lt a b = true) :
    pystr_lt b a = false :=
  charlist_lt_asymm a.data b.data h

theorem pystr_lt_trans (a b c : String) (h1 : pystr_lt a b = true)
    (h2 : pystr_lt b c = true) : pystr_lt a c = true :=
  charlist_lt_trans a.data b.data c.data h1 h2

theorem insert_desc_pairwise (e : ManifestEntry) (l : List ManifestEntry)
    (h : l.Pairwise fun a b => pystr_lt a.timestamp b.timestamp = false) :
    (insert_desc e l).Pairwise fun a b => pystr_lt a.timestamp b.timestamp = false := by
  induction l with
  | nil => simp [insert_desc]
  | cons x xs ih =>
    rw [List.pairwise_cons] at h
    obtain ⟨hx, hxs⟩ := h
    simp only [insert_desc]
    split
    · rename_i hlt
      refine List.pairwise_cons.mpr ⟨?_, List.pairwise_cons.mpr ⟨hx, hxs⟩⟩
      intro y hy
      rcases List.mem_cons.mp hy with rfl | hy
      · exact pystr_lt_asymm _ _ hlt
      · cases hey : pystr_lt e.timestamp y.timestamp with
        | false => rfl
        | true =>
          have := pystr_lt_trans _ _ _ hlt hey
          rw [hx y hy] at this
          exact absurd this (by simp)
    · rename_i hnlt
      refine List.pairwise_cons.mpr ⟨?_, ih hxs⟩
      intro y hy
      have hy2 : y = e ∨ y ∈ xs := by
        simpa using (insert_desc_perm e xs).mem_iff.mp hy
      rcases hy2 with rfl | hy2
      · simpa using hnlt
      · exact hx y hy2

theorem sort_foldl_pairwise (l acc : List ManifestEntry)
    (h : acc.Pairwise fun a b => pystr_lt a.timestamp b.timestamp = false) :
    (l.foldl (fun a e => insert_desc e a) acc).Pairwise
      fun a b => pystr_lt a.timestamp b.timestamp = false := by
  induction l generalizing acc with
  | nil => exact h
  | cons e l ih => exact ih _ (insert_desc_pairwise e acc h)

theorem sort_by_timestamp_desc_pairwise (l : List ManifestEntry) :
    (sort_by_timestamp_desc l).Pairwise
      fun a b => pystr_lt a.timestamp b.timestamp = false :=
  sort_foldl_pairwise l [] (by simp)

theorem manifest_merge_count (now : String) (m : Manifest) (entry : ManifestEntry) :
    ((manifest_merge now m entry).emails.filter
      fun x => x.messageId == entry.messageId).length = 1 := by
  simp only [manifest_merge]
  rw [(List.Perm.filter _ (sort_by_timestamp_desc_perm _)).length_eq]
  rw [List.filter_append, List.filter_filter]
  have h1 : (m.emails.filter fun a =>
      (a.messageId == entry.messageId) && (a.messageId != entry.messageId)) = [] := by
    apply List.filter_eq_nil_iff.mpr
    intro a _
    cases h : a.messageId == entry.messageId <;> simp [bne, h]
  rw [h1]
  simp [List.filter]

theorem assoc_get_put_self {α : Type} (k : String) (v : α) (l : List (String × α)) :
    assoc_get k (assoc_put k v l) = some v := by
  have h : (l.filter fun kv => kv.1 != k).find? (fun kv => kv.1 == k) = none := by
    apply List.find?_eq_none.mpr
    intro x hx
    have := (List.mem_filter.mp hx).2
    simp only [bne] at this
    simpa using this
  simp [assoc_get, assoc_put, List.find?_append, h, List.find?]

theorem assoc_put_key_count {α : Type} (k : String) (v : α) (l : List (String × α)) :
    ((assoc_put k v l).filter fun kv => kv.1 == k).length = 1 := by
  simp only [assoc_put, List.filter_append, List.filter_filter]
  have h1 : (l.filter fun kv => (kv.1 == k) && (kv.1 != k)) = [] := by
    apply List.filter_eq_nil_iff.mpr
    intro a _
    cases h : a.1 == k <;> simp [bne, h]
  rw [h1]
  simp [List.filter]

theorem assoc_get_sparse_filter (k : String) (v : Val) (item : List (String × Val))
    (h : assoc_get k item = some v) (hv : v.truthy = true) :
    assoc_get k (sparse_filter item) = some v := by
  induction item with
  | nil => simp [assoc_get] at h
  | cons kv rest ih =>
    by_cases hk : (kv.1 == k) = true
    · have hkv2 : kv.2 = v := by
        simpa [assoc_get, List.find?, hk] using h
      have ht : kv.2.truthy = true := by rw [hkv2]; exact hv
      have hfc : sparse_filter (kv :: rest) = kv :: sparse_filter rest := by
        simp [sparse_filter, List.filter_cons, ht]
      rw [hfc]
      simp [assoc_get, List.find?, hk, hkv2]
    · have hk' : (kv.1 == k) = false := by simpa using hk
      have hrest : assoc_get k rest = some v := by
        simpa [assoc_get, List.find?, hk'] using h
      have hih := ih hrest
      by_cases ht : kv.2.truthy = true
      · simpa [sparse_filter, List.filter_cons, ht, assoc_get, List.find?, hk'] using hih
      · have ht' : kv.2.truthy = false := by simpa using ht
        simpa [sparse_filter, List.filter_cons, ht'] using hih

theorem assoc_get_sparse_filter_none (k : String) (item : List (String × Val))
    (h : ∀ v, (k, v) ∈ item → v.truthy = false) :
    assoc_get k (sparse_filter item) = none := by
  have hfind : List.find? (fun kv => kv.1 == k) (sparse_filter item) = none := by
    apply List.find?_eq_none.mpr
    intro x hx
    obtain ⟨hmem, htruthy⟩ := List.mem_filter.mp hx
    intro hk
    have hx1 : x.1 = k := by simpa using hk
    have hfalse : x.2.truthy = false := h x.2 (by rw [← hx1]; exact hmem)
    rw [hfalse] at htruthy
    exact Bool.false_ne_true htruthy
  simp [assoc_get, hfind]

theorem sparse_filter_all_truthy (item : List (String × Val)) :
    ((sparse_filter item).all fun kv => kv.2.truthy) = true := by
  rw [List.all_eq_true]
  intro x hx
  exact (List.mem_filter.mp hx).2

theorem string_append_ne_empty (a b : String) (h : a ≠ "") : a ++ b ≠ "" := by
  intro hc
  apply h
  have hd := congrArg String.data hc
  rw [String.data_append] at hd
  cases a with
  | mk data =>
    cases data with
    | nil => rfl
    | cons c cs => simp at hd

/-! ## Specification-side definitions

These follow the words of the specification and its claims (not the
source); they exist to be compared with the source-derived definitions.
-/

/-- Written from the spec sentence for the manifest order: sorted by
`timestamp` descending with ties broken by `messageId` ascending. -/
def sorted_desc_tiebreak : List ManifestEntry → Bool
  | [] => true
  | a :: rest =>
    (rest.all fun b =>
      pystr_lt b.timestamp a.timestamp ||
      (a.timestamp == b.timestamp && pystr_lt a.messageId b.messageId)) &&
    sorted_desc_tiebreak rest

/-- Written from the spec sentence for extraction: payload of the first
part in depth-first pre-order with the given content type, decoded as
UTF-8 with invalid sequences replaced, or empty if no such part exists. -/
def spec_first_part_text (ctype : String) (m : MimePart) : String :=
  match m.walk.find? fun p => p.get_content_type == ctype with
  | some p => py_decode_utf8 true (p.get_payload_decoded.getD [])
  | none => ""

/-- The amended extraction rule actually implemented by the source: first
part in depth-first pre-order with the given content type and a non-empty
decoded payload, decoded as UTF-8 with invalid sequences dropped
(errors=ignore). -/
def amended_first_text (ctype : String) (m : MimePart) : String :=
  match (m.walk.filter fun p =>
      p.get_content_type == ctype && !(p.get_payload_decoded.getD []).isEmpty).head? with
  | some p => py_decode_utf8 false (p.get_payload_decoded.getD [])
  | none => ""

theorem first_content_eq (c : String) (parts : List MimePart) :
    first_content c parts =
      ((parts.filter fun p =>
        p.get_content_type == c && !(p.get_payload_decoded.getD []).isEmpty).head?).map
        fun p => p.get_payload_decoded.getD [] := by
  induction parts with
  | nil => rfl
  | cons p ps ih =>
    rw [first_content, List.findSome?_cons, List.filter_cons]
    by_cases hc : p.get_content_type = c
    · cases hp : p.get_payload_decoded with
      | none => simpa [hc, first_content] using ih
      | some payload =>
        by_cases he : payload.isEmpty
        · simpa [hc, hp, he, first_content] using ih
        · simp [hc, hp, he]
    · simpa [hc, first_content] using ih

/-- When the blob and index writes succeed and the partition date derives,
`process_email` runs to completion: this spells out the final state. -/
theorem process_email_ok_shape (lib : PyLib) (cfg : EnvCfg) (o : EffectOracle)
    (msg : EmailMsg) (mid ts src : String) (dests : List String) (st : SysState)
    (hb : o.blob_put_fails = false) (hi : o.index_put_fails = false)
    (ds : String)
    (hds : derive_date_str lib.iso_to_date
      (resolve_timestamp lib.parsedate_iso (msg.dateHdr.getD "") ts) = some ds) :
    process_email lib cfg o msg mid ts src dests st =
      (let subject := msg.subject.getD ""
       let from_addr := msg.fromHdr.getD src
       let to_addr := msg.toHdr.getD (String.intercalate ", " dests)
       let recipient_email := (lib.parseaddr to_addr).2
       let tsr := resolve_timestamp lib.parsedate_iso (msg.dateHdr.getD "") ts
       let processed_key := "processed/" ++ ds ++ "/" ++ mid ++ ".eml"
       let item := sparse_filter (build_metadata_item mid tsr ds subject from_addr
         to_addr (msg.ccHdr.getD "") (msg.bccHdr.getD "") (msg.replyTo.getD "")
         (lib.parseaddr from_addr).2 recipient_email processed_key msg.raw.length
         (extract_attachments_info msg.root) (extract_text_content msg.root)
         (extract_html_content msg.root) o.processed_at cfg.domain_name)
       ({ blob_store := assoc_put processed_key
            { body := msg.raw, content_type := "message/rfc822",
              metadata := blob_metadata mid subject from_addr to_addr ds }
            st.blob_store,
          index_store := assoc_put mid item st.index_store,
          manifest_store := create_manifest_entry o ds mid item st.manifest_store,
          forward_calls := st.forward_calls ++
            forward_email_if_matched lib.re_match cfg.forwarding_rules recipient_email },
        none)) := by
  simp only [process_email, hds, hb, hi, Bool.false_eq_true, if_false]

/-- Structural bridge for the extraction claim: the two-branch source code
equals the uniform first-nonempty-part rule for any content type. -/
theorem extract_generic_eq (c : String) (m : MimePart) :
    (if m.is_multipart then
      match first_content c m.walk with
      | some payload => py_decode_utf8 false payload
      | none => ""
     else
      if m.get_content_type = c then
        match m.get_payload_decoded with
        | some payload => if payload.isEmpty then "" else py_decode_utf8 false payload
        | none => ""
      else "") = amended_first_text c m := by
  cases m with
  | multi ct parts =>
    simp only [MimePart.is_multipart, if_true]
    rw [first_content_eq, amended_first_text]
    cases h : ((MimePart.multi ct parts).walk.filter fun p =>
        p.get_content_type == c && !(p.get_payload_decoded.getD []).isEmpty).head? with
    | none => simp [h]
    | some p => simp [h]
  | leaf ct d f payload =>
    simp only [MimePart.is_multipart, Bool.false_eq_true, if_false]
    rw [amended_first_text]
    by_cases hc : ct = c
    · subst hc
      cases he : payload.isEmpty with
      | true =>
        simp [MimePart.walk, MimePart.get_content_type, MimePart.get_payload_decoded,
          List.filter, he]
      | false =>
        simp [MimePart.walk, MimePart.get_content_type, MimePart.get_payload_decoded,
          List.filter, he]
    · have hb : (ct == c) = false := beq_eq_false_iff_ne.mpr hc
      simp [MimePart.walk, MimePart.get_content_type, MimePart.get_payload_decoded,
        List.filter, hc, hb]

/-! ## The claims -/

/-- The two concurrent invocations of the race demonstration: distinct
message ids A and B, same partition date. -/
def race_demo_procs : List NaiveProc :=
  [{ date_str := "2024-01-15", message_id := "A",
     entry := { messageId := "A", timestamp := "2024-01-15T10:00:00",
                s3_key := "processed/2024-01-15/A.eml", subject := "",
                fromAddr := "", toAddr := "", size := 1, has_attachments := false },
     now := "2024-01-15T10:00:01Z" },
   { date_str := "2024-01-15", message_id := "B",
     entry := { messageId := "B", timestamp := "2024-01-15T10:00:02",
                s3_key := "processed/2024-01-15/B.eml", subject := "",
                fromAddr := "", toAddr := "", size := 2, has_attachments := false },
     now := "2024-01-15T10:00:03Z" }]

/-- The racy interleaving: both invocations read before either writes. -/
def racy_schedule : List SchedStep := [.read 0, .read 1, .write 0, .write 1]

/-- The serialized schedule of the same two invocations. -/
def seq_schedule : List SchedStep := [.read 0, .write 0, .read 1, .write 1]

/-- C1: the claim states that concurrent `mergeEntry` invocations for
distinct message ids never lose updates because the read-merge-write runs
under an optimistic-concurrency discipline.  The source's
`create_manifest_entry` has no version token, no conditional write and no
retry: with two invocations for ids A and B interleaved read-read-write-
write, B's unconditional overwrite discards A's entry, while the
sequential schedule keeps both.  This theorem evaluates the naive code at
that failing interleaving. -/
theorem manifest_race_lost_update :
    valid_two_phase 2 racy_schedule = true ∧
    valid_two_phase 2 seq_schedule = true ∧
    race_has_entry (race_run race_demo_procs seq_schedule) "A" = true ∧
    race_has_entry (race_run race_demo_procs seq_schedule) "B" = true ∧
    race_has_entry (race_run race_demo_procs racy_schedule) "B" = true ∧
    race_has_entry (race_run race_demo_procs racy_schedule) "A" = false := by
  decide

/-- C2 counterexample: merging an entry whose timestamp ties an existing
entry with a larger messageId leaves the tie in stable insertion order
(larger id first), so the claimed messageId-ascending tie-break fails
right after a successful merge. -/
theorem manifest_sort_tiebreak_cex :
    sorted_desc_tiebreak
      ((manifest_merge "t2"
        (manifest_merge "t1" (empty_manifest "2024-01-01")
          { messageId := "b", timestamp := "2024-01-01T00:00:00", s3_key := "k1",
            subject := "", fromAddr := "", toAddr := "", size := 0,
            has_attachments := false })
        { messageId := "a", timestamp := "2024-01-01T00:00:00", s3_key := "k2",
          subject := "", fromAddr := "", toAddr := "", size := 0,
          has_attachments := false }).emails) = false := by
  decide

/-- C2 (amended): after every merge the manifest's entry sequence is
sorted by timestamp descending (no earlier entry compares strictly less
than a later one, under Python string comparison); entries with equal
timestamps keep their prior relative order (Python's stable sort), with
no messageId tie-break. -/
theorem manifest_merge_sorted_desc (now : String) (m : Manifest) (entry : ManifestEntry) :
    (manifest_merge now m entry).emails.Pairwise
      fun a b => pystr_lt a.timestamp b.timestamp = false := by
  simp only [manifest_merge]
  exact sort_by_timestamp_desc_pairwise _

/-- C5 counterexample: on a part whose payload is invalid UTF-8 the code
drops the bad byte (errors=ignore) where the claim replaces it, and on a
message whose first text/plain part has an empty payload the code skips
ahead to a later part where the claim takes the empty first part. -/
theorem extract_first_part_replace_cex :
    extract_text_content (.leaf "text/plain" none none [0xFF, 0x41]) ≠
      spec_first_part_text "text/plain" (.leaf "text/plain" none none [0xFF, 0x41]) ∧
    extract_text_content (.multi "multipart/mixed"
        [.leaf "text/plain" none none [], .leaf "text/plain" none none [0x68, 0x69]]) ≠
      spec_first_part_text "text/plain" (.multi "multipart/mixed"
        [.leaf "text/plain" none none [], .leaf "text/plain" none none [0x68, 0x69]]) := by
  decide

/-- C5 (amended): plainText is the UTF-8 decoding, with invalid sequences
dropped (errors=ignore), of the payload of the first part in depth-first
pre-order whose content type is text/plain and whose decoded payload is
non-empty, and the empty string when no such part exists; likewise html
for text/html. -/
theorem extract_content_first_nonempty_ignore (m : MimePart) :
    extract_text_content m = amended_first_text "text/plain" m ∧
    extract_html_content m = amended_first_text "text/html" m := by
  constructor
  · have h := extract_generic_eq "text/plain" m
    simpa only [extract_text_content] using h
  · have h := extract_generic_eq "text/html" m
    simpa only [extract_html_content] using h

/-- C6: with an absent Date header, or one whose parse raises, the
record's timestamp is the event-provided arrival timestamp unmodified and
the message still processes to completion; with a present, well-formed
Date header the timestamp is taken from it. -/
theorem timestamp_fallback_on_bad_date
    (parsedate_iso : String → Option String) (date_header event_ts : String) :
    (date_header = "" →
      resolve_timestamp parsedate_iso date_header event_ts = event_ts) ∧
    (parsedate_iso date_header = none →
      resolve_timestamp parsedate_iso date_header event_ts = event_ts) ∧
    (∀ iso, date_header ≠ "" → parsedate_iso date_header = some iso →
      resolve_timestamp parsedate_iso date_header event_ts = iso) ∧
    (∀ (lib : PyLib) (cfg : EnvCfg) (o : EffectOracle) (msg : EmailMsg)
        (mid src : String) (dests : List String) (st : SysState) (ds : String),
      lib.parsedate_iso = parsedate_iso → msg.dateHdr.getD "" = date_header →
      parsedate_iso date_header = none →
      o.blob_put_fails = false → o.index_put_fails = false →
      derive_date_str lib.iso_to_date event_ts = some ds →
      (process_email lib cfg o msg mid event_ts src dests st).2 = none) := by
  refine ⟨?_, ?_, ?_, ?_⟩
  · intro h
    simp [resolve_timestamp, h]
  · intro h
    simp only [resolve_timestamp, h]
    split <;> rfl
  · intro iso hne hsome
    simp [resolve_timestamp, hsome, bne_iff_ne, hne]
  · intro lib cfg o msg mid src dests st ds hlib hdh hnone hb hi hds
    have hres : resolve_timestamp lib.parsedate_iso (msg.dateHdr.getD "") event_ts
        = event_ts := by
      rw [hlib, hdh]
      simp only [resolve_timestamp, hnone]
      split <;> rfl
    rw [process_email_ok_shape lib cfg o msg mid event_ts src dests st hb hi ds
      (by rw [hres]; exact hds)]

/-- C6 witness: a concrete run with an unparseable Date header falls back
to the arrival timestamp and finishes without error. -/
theorem timestamp_fallback_on_bad_date_witness :
    resolve_timestamp (fun _ => none) "Mon, 32 Foo 2024" "2024-01-15T10:00:00Z"
      = "2024-01-15T10:00:00Z" ∧
    (process_email
      { parseaddr := fun s => ("", s), parsedate_iso := fun _ => none,
        iso_to_date := fun _ => some "2024-01-15", re_match := fun _ _ => false }
      { domain_name := none, forwarding_rules := [] }
      { blob_put_fails := false, index_put_fails := false, manifest_read_fails := false,
        manifest_put_fails := false, send_raw_fails := false,
        processed_at := "2024-01-15T10:00:05Z", manifest_now := "2024-01-15T10:00:06Z" }
      { subject := some "hello", fromHdr := some "f@x.com", toHdr := some "t@y.com",
        dateHdr := some "Mon, 32 Foo 2024", replyTo := none, ccHdr := none,
        bccHdr := none, root := .leaf "text/plain" none none [0x68], raw := [0x68] }
      "m1" "2024-01-15T10:00:00Z" "f@x.com" ["t@y.com"]
      { blob_store := [], index_store := [], manifest_store := [],
        forward_calls := [] }).2 = none :=
  ⟨(timestamp_fallback_on_bad_date (fun _ => none) "Mon, 32 Foo 2024"
      "2024-01-15T10:00:00Z").2.1 rfl,
   (timestamp_fallback_on_bad_date (fun _ => none) "Mon, 32 Foo 2024"
      "2024-01-15T10:00:00Z").2.2.2 _ _ _ _ _ _ _ _ "2024-01-15"
      rfl rfl rfl rfl rfl (by decide)⟩

/-- C7: once the blob and index writes have succeeded, any combination of
manifest-maintenance failures (read errors, put failures) never raises to
the caller: the run reports success and the pipeline still proceeds to
forwarding. -/
theorem manifest_failure_nonfatal (lib : PyLib) (cfg : EnvCfg) (o : EffectOracle)
    (msg : EmailMsg) (mid ts src : String) (dests : List String) (st : SysState)
    (ds : String)
    (hb : o.blob_put_fails = false) (hi : o.index_put_fails = false)
    (hds : derive_date_str lib.iso_to_date
      (resolve_timestamp lib.parsedate_iso (msg.dateHdr.getD "") ts) = some ds) :
    (process_email lib cfg o msg mid ts src dests st).2 = none ∧
    (process_email lib cfg o msg mid ts src dests st).1.forward_calls =
      st.forward_calls ++ forward_email_if_matched lib.re_match cfg.forwarding_rules
        (lib.parseaddr (msg.toHdr.getD (String.intercalate ", " dests))).2 := by
  rw [process_email_ok_shape lib cfg o msg mid ts src dests st hb hi ds hds]
  exact ⟨rfl, rfl⟩

/-- C7 witness: a concrete run in which both the manifest read and the
manifest write fail still reports success and reaches forwarding. -/
theorem manifest_failure_nonfatal_witness :
    (process_email
      { parseaddr := fun s => ("", s), parsedate_iso := fun _ => none,
        iso_to_date := fun _ => some "2024-01-15", re_match := fun _ _ => true }
      { domain_name := some "x.com",
        forwarding_rules := [{ pattern := "^.*$", forward_to := "fw@z.com" }] }
      { blob_put_fails := false, index_put_fails := false, manifest_read_fails := true,
        manifest_put_fails := true, send_raw_fails := true,
        processed_at := "2024-01-15T10:00:05Z", manifest_now := "2024-01-15T10:00:06Z" }
      { subject := some "hello", fromHdr := some "f@x.com", toHdr := some "t@y.com",
        dateHdr := none, replyTo := none, ccHdr := none, bccHdr := none,
        root := .leaf "text/plain" none none [0x68], raw := [0x68] }
      "m1" "2024-01-15T10:00:00Z" "f@x.com" ["t@y.com"]
      { blob_store := [], index_store := [], manifest_store := [],
        forward_calls := [] }).2 = none ∧
    (process_email
      { parseaddr := fun s => ("", s), parsedate_iso := fun _ => none,
        iso_to_date := fun _ => some "2024-01-15", re_match := fun _ _ => true }
      { domain_name := some "x.com",
        forwarding_rules := [{ pattern := "^.*$", forward_to := "fw@z.com" }] }
      { blob_put_fails := false, index_put_fails := false, manifest_read_fails := true,
        manifest_put_fails := true, send_raw_fails := true,
        processed_at := "2024-01-15T10:00:05Z", manifest_now := "2024-01-15T10:00:06Z" }
      { subject := some "hello", fromHdr := some "f@x.com", toHdr := some "t@y.com",
        dateHdr := none, replyTo := none, ccHdr := none, bccHdr := none,
        root := .leaf "text/plain" none none [0x68], raw := [0x68] }
      "m1" "2024-01-15T10:00:00Z" "f@x.com" ["t@y.com"]
      { blob_store := [], index_store := [], manifest_store := [],
        forward_calls := [] }).1.forward_calls = [("t@y.com", "fw@z.com")] :=
  ⟨(manifest_failure_nonfatal _ _ _ _ _ _ _ _ _ "2024-01-15" rfl rfl (by decide)).1,
   by
    rw [(manifest_failure_nonfatal _ _ _ _ _ _ _ _ _ "2024-01-15" rfl rfl
      (by decide)).2]
    decide⟩

/-- C8: rules are checked in configured order; the first whose pattern
matches the recipient triggers exactly one send, with the original
recipient as source and the rule's forward_to as destination, and no
later rule fires; with no matching rule no send happens. -/
theorem forwarding_first_match_only
    (re_match : String → String → Bool) (rules : List ForwardingRule)
    (recipient : String) :
    ((∀ r ∈ rules, re_match r.pattern recipient = false) →
      forward_email_if_matched re_match rules recipient = []) ∧
    (∀ r, rules.find? (fun ru => re_match ru.pattern recipient) = some r →
      forward_email_if_matched re_match rules recipient =
        [(recipient, r.forward_to)]) := by
  induction rules with
  | nil =>
    constructor
    · intro
      rfl
    · intro r h
      simp [List.find?] at h
  | cons rule rest ih =>
    constructor
    · intro h
      have hr : re_match rule.pattern recipient = false := h rule (by simp)
      simp only [forward_email_if_matched, hr, Bool.false_eq_true, if_false]
      exact ih.1 fun r hmem => h r (by simp [hmem])
    · intro r h
      cases hm : re_match rule.pattern recipient with
      | true =>
        have : rule = r := by simpa [List.find?, hm] using h
        subst this
        simp [forward_email_if_matched, hm]
      | false =>
        have h2 : rest.find? (fun ru => re_match ru.pattern recipient) = some r := by
          simpa [List.find?, hm] using h
        simp only [forward_email_if_matched, hm, Bool.false_eq_true, if_false]
        exact ih.2 r h2

/-- C8 witness: the spec's example — recipient a@x.com with the single
rule pattern matching it forwards exactly once to b@y.com, and the empty
rule list never sends. -/
theorem forwarding_first_match_only_witness :
    (([{ pattern := "^a@x\\.com$", forward_to := "b@y.com" }] :
        List ForwardingRule).find?
      (fun ru => (fun p s => p == "^a@x\\.com$" && s == "a@x.com")
        ru.pattern "a@x.com") =
      some { pattern := "^a@x\\.com$", forward_to := "b@y.com" }) ∧
    forward_email_if_matched (fun p s => p == "^a@x\\.com$" && s == "a@x.com")
      [{ pattern := "^a@x\\.com$", forward_to := "b@y.com" }] "a@x.com" =
      [("a@x.com", "b@y.com")] ∧
    forward_email_if_matched (fun p s => p == "^a@x\\.com$" && s == "a@x.com")
      [] "a@x.com" = [] :=
  ⟨by decide,
   (forwarding_first_match_only (fun p s => p == "^a@x\\.com$" && s == "a@x.com")
      [{ pattern := "^a@x\\.com$", forward_to := "b@y.com" }] "a@x.com").2
      { pattern := "^a@x\\.com$", forward_to := "b@y.com" } (by decide),
   (forwarding_first_match_only (fun p s => p == "^a@x\\.com$" && s == "a@x.com")
      [] "a@x.com").1 (by simp)⟩

theorem build_item_get_subject (mid ts ds subject fa ta cc bcc rt se re pk : String)
    (sz : Nat) (atts : List AttachmentInfo) (bt bh pa : String) (dom : Option String) :
    assoc_get "subject" (build_metadata_item mid ts ds subject fa ta cc bcc rt se re
      pk sz atts bt bh pa dom) = some (.str subject) := by
  simp [build_metadata_item, assoc_get, List.find?]

theorem build_item_get_timestamp (mid ts ds subject fa ta cc bcc rt se re pk : String)
    (sz : Nat) (atts : List AttachmentInfo) (bt bh pa : String) (dom : Option String) :
    assoc_get "timestamp" (build_metadata_item mid ts ds subject fa ta cc bcc rt se re
      pk sz atts bt bh pa dom) = some (.str ts) := by
  simp [build_metadata_item, assoc_get, List.find?]

theorem build_item_get_s3_key (mid ts ds subject fa ta cc bcc rt se re pk : String)
    (sz : Nat) (atts : List AttachmentInfo) (bt bh pa : String) (dom : Option String) :
    assoc_get "s3_key" (build_metadata_item mid ts ds subject fa ta cc bcc rt se re
      pk sz atts bt bh pa dom) = some (.str pk) := by
  simp [build_metadata_item, assoc_get, List.find?]

/-- C4 counterexample: a 2000-character subject is stored at full length
in the persisted index record — the `subject[:1000]` truncation at line
233 applies only to the blob object metadata, and the DynamoDB item at
line 245 carries the untruncated `subject`. -/
theorem index_subject_untruncated_cex :
    assoc_get "subject" (sparse_filter (build_metadata_item "m1"
      "2024-01-15T10:00:00" "2024-01-15" (String.mk (List.replicate 2000 'a'))
      "f@x.com" "t@y.com" "" "" "" "f@x.com" "t@y.com"
      "processed/2024-01-15/m1.eml" 1 [] "" "" "2024-01-15T10:00:05Z" none)) =
      some (.str (String.mk (List.replicate 2000 'a'))) ∧
    (String.mk (List.replicate 2000 'a')).length = 2000 ∧
    ¬(String.mk (List.replicate 2000 'a')).length ≤ 1000 := by
  have hne : String.mk (List.replicate 2000 'a') ≠ "" := by
    intro hc
    have hd : List.replicate 2000 'a' = ([] : List Char) := congrArg String.data hc
    have hlen := congrArg List.length hd
    rw [List.length_replicate] at hlen
    simp at hlen
  refine ⟨?_, ?_, ?_⟩
  case refine_2 =>
    rw [String.length_mk, List.length_replicate]
  case refine_3 =>
    rw [String.length_mk, List.length_replicate]
    omega
  apply assoc_get_sparse_filter _ _ _
    (build_item_get_subject "m1" "2024-01-15T10:00:00" "2024-01-15"
      (String.mk (List.replicate 2000 'a')) "f@x.com" "t@y.com" "" "" "" "f@x.com"
      "t@y.com" "processed/2024-01-15/m1.eml" 1 [] "" "" "2024-01-15T10:00:05Z" none)
  show (String.mk (List.replicate 2000 'a') != "") = true
  rw [bne_iff_ne]
  exact hne

/-- C4 (amended): only the blob object's metadata annotations are
truncated to 1000 characters (subject, from, to); the persisted index
record stores subject, from, to, cc, bcc and reply_to untruncated, so a
2000-character subject is persisted at full length in the index record
and truncated only in the blob metadata. -/
theorem truncation_only_blob_metadata
    (mid ts ds subject fa ta cc bcc rt se re pk : String) (sz : Nat)
    (atts : List AttachmentInfo) (bt bh pa : String) (dom : Option String)
    (hsub : subject ≠ "") :
    assoc_get "subject" (build_metadata_item mid ts ds subject fa ta cc bcc rt se re
      pk sz atts bt bh pa dom) = some (.str subject) ∧
    assoc_get "subject" (sparse_filter (build_metadata_item mid ts ds subject fa ta
      cc bcc rt se re pk sz atts bt bh pa dom)) = some (.str subject) ∧
    assoc_get "from" (build_metadata_item mid ts ds subject fa ta cc bcc rt se re
      pk sz atts bt bh pa dom) = some (.str fa) ∧
    assoc_get "to" (build_metadata_item mid ts ds subject fa ta cc bcc rt se re
      pk sz atts bt bh pa dom) = some (.str ta) ∧
    assoc_get "cc" (build_metadata_item mid ts ds subject fa ta cc bcc rt se re
      pk sz atts bt bh pa dom) = some (.str cc) ∧
    assoc_get "bcc" (build_metadata_item mid ts ds subject fa ta cc bcc rt se re
      pk sz atts bt bh pa dom) = some (.str bcc) ∧
    assoc_get "reply_to" (build_metadata_item mid ts ds subject fa ta cc bcc rt se re
      pk sz atts bt bh pa dom) = some (.str rt) ∧
    assoc_get "subject" (blob_metadata mid subject fa ta ds) =
      some (subject.take 1000) ∧
    assoc_get "from" (blob_metadata mid subject fa ta ds) = some (fa.take 1000) ∧
    assoc_get "to" (blob_metadata mid subject fa ta ds) = some (ta.take 1000) := by
  have hs : assoc_get "subject" (build_metadata_item mid ts ds subject fa ta cc bcc
      rt se re pk sz atts bt bh pa dom) = some (.str subject) := by
    simp [build_metadata_item, assoc_get, List.find?]
  refine ⟨hs, ?_, ?_, ?_, ?_, ?_, ?_, ?_, ?_, ?_⟩
  · exact assoc_get_sparse_filter _ _ _ hs (by simpa [Val.truthy] using hsub)
  all_goals simp [build_metadata_item, blob_metadata, assoc_get, List.find?]

/-- C4 witness: the amended statement at a concrete non-empty subject. -/
theorem truncation_only_blob_metadata_witness :
    assoc_get "subject" (sparse_filter (build_metadata_item "m1" "t" "d" "hello"
      "f" "t2" "" "" "" "se" "re" "k" 1 [] "" "" "p" none)) =
      some (.str "hello") ∧
    assoc_get "subject" (blob_metadata "m1" "hello" "f" "t2" "d") =
      some ("hello".take 1000) :=
  ⟨(truncation_only_blob_metadata "m1" "t" "d" "hello" "f" "t2" "" "" "" "se" "re"
      "k" 1 [] "" "" "p" none (by decide)).2.1,
   (truncation_only_blob_metadata "m1" "t" "d" "hello" "f" "t2" "" "" "" "se" "re"
      "k" 1 [] "" "" "p" none (by decide)).2.2.2.2.2.2.2.1⟩

theorem processed_key_ne_empty (ds mid : String) :
    ("processed/" ++ ds ++ "/" ++ mid ++ ".eml") ≠ "" := by
  apply string_append_ne_empty
  apply string_append_ne_empty
  apply string_append_ne_empty
  apply string_append_ne_empty
  decide

theorem manifest_merge_count_id (now : String) (m : Manifest) (entry : ManifestEntry)
    (i : String) (h : entry.messageId = i) :
    ((manifest_merge now m entry).emails.filter
      fun e => e.messageId == i).length = 1 := by
  subst h
  exact manifest_merge_count now m entry

/-- Shape of `create_manifest_entry` when the date splits, both metadata
lookups are present strings, and neither store call fails. -/
theorem create_manifest_entry_ok (o : EffectOracle) (ds mid y mo dy : String)
    (metadata : List (String × Val)) (tsv skv : String)
    (store : List (String × Manifest))
    (hsplit : py_split_char ds ('-') = [y, mo, dy])
    (hr : o.manifest_read_fails = false) (hp : o.manifest_put_fails = false)
    (hts : assoc_get "timestamp" metadata = some (.str tsv))
    (hsk : assoc_get "s3_key" metadata = some (.str skv)) :
    create_manifest_entry o ds mid metadata store =
      assoc_put ("manifest/" ++ y ++ "/" ++ mo ++ "/" ++ dy ++ "/manifest.json")
        (manifest_merge o.manifest_now
          (match assoc_get ("manifest/" ++ y ++ "/" ++ mo ++ "/" ++ dy ++
              "/manifest.json") store with
           | some m => m
           | none => empty_manifest ds)
          { messageId := mid, timestamp := tsv, s3_key := skv,
            subject := val_get_str metadata "subject" "",
            fromAddr := val_get_str metadata "from" "",
            toAddr := val_get_str metadata "to" "",
            size := val_get_num metadata "size" 0,
            has_attachments := val_get_bool metadata "has_attachments" false })
        store := by
  simp only [create_manifest_entry, hsplit, hr, hts, hsk, hp, Bool.false_eq_true,
    if_false]

/-- C3: ingesting the same message twice (same message id, same event
metadata; wall-clock readings and a second, equally effect-free oracle may
differ) leaves exactly one blob object under the deterministic processed
key, exactly one index record under the message id, and exactly one
manifest entry for the id in the partition date's manifest. -/
theorem ingest_twice_single_records
    (lib : PyLib) (cfg : EnvCfg) (o1 o2 : EffectOracle) (msg : EmailMsg)
    (mid ts src : String) (dests : List String) (st : SysState)
    (ds y mo dy : String)
    (hb1 : o1.blob_put_fails = false) (hi1 : o1.index_put_fails = false)
    (hr1 : o1.manifest_read_fails = false) (hp1 : o1.manifest_put_fails = false)
    (hb2 : o2.blob_put_fails = false) (hi2 : o2.index_put_fails = false)
    (hr2 : o2.manifest_read_fails = false) (hp2 : o2.manifest_put_fails = false)
    (hds : derive_date_str lib.iso_to_date
      (resolve_timestamp lib.parsedate_iso (msg.dateHdr.getD "") ts) = some ds)
    (hsplit : py_split_char ds ('-') = [y, mo, dy])
    (hts : resolve_timestamp lib.parsedate_iso (msg.dateHdr.getD "") ts ≠ "") :
    (process_email lib cfg o1 msg mid ts src dests st).2 = none ∧
    (process_email lib cfg o2 msg mid ts src dests
      (process_email lib cfg o1 msg mid ts src dests st).1).2 = none ∧
    (((process_email lib cfg o2 msg mid ts src dests
        (process_email lib cfg o1 msg mid ts src dests st).1).1.blob_store.filter
      fun kv => kv.1 == "processed/" ++ ds ++ "/" ++ mid ++ ".eml").length = 1) ∧
    (((process_email lib cfg o2 msg mid ts src dests
        (process_email lib cfg o1 msg mid ts src dests st).1).1.index_store.filter
      fun kv => kv.1 == mid).length = 1) ∧
    (∃ m, assoc_get ("manifest/" ++ y ++ "/" ++ mo ++ "/" ++ dy ++ "/manifest.json")
        (process_email lib cfg o2 msg mid ts src dests
          (process_email lib cfg o1 msg mid ts src dests st).1).1.manifest_store =
        some m ∧
      (m.emails.filter fun e => e.messageId == mid).length = 1) := by
  have htv : (Val.str (resolve_timestamp lib.parsedate_iso (msg.dateHdr.getD "")
      ts)).truthy = true := by
    show ((resolve_timestamp lib.parsedate_iso (msg.dateHdr.getD "") ts) != "") = true
    rw [bne_iff_ne]
    exact hts
  have hkv : (Val.str ("processed/" ++ ds ++ "/" ++ mid ++ ".eml")).truthy = true := by
    show (("processed/" ++ ds ++ "/" ++ mid ++ ".eml") != "") = true
    rw [bne_iff_ne]
    exact processed_key_ne_empty ds mid
  rw [process_email_ok_shape lib cfg o1 msg mid ts src dests st hb1 hi1 ds hds]
  rw [process_email_ok_shape lib cfg o2 msg mid ts src dests _ hb2 hi2 ds hds]
  simp only []
  rw [create_manifest_entry_ok o1 ds mid y mo dy _ _ _ _ hsplit hr1 hp1
    (assoc_get_sparse_filter _ _ _ (build_item_get_timestamp _ _ _ _ _ _ _ _ _ _ _
      _ _ _ _ _ _ _) htv)
    (assoc_get_sparse_filter _ _ _ (build_item_get_s3_key _ _ _ _ _ _ _ _ _ _ _
      _ _ _ _ _ _ _) hkv)]
  rw [create_manifest_entry_ok o2 ds mid y mo dy _ _ _ _ hsplit hr2 hp2
    (assoc_get_sparse_filter _ _ _ (build_item_get_timestamp _ _ _ _ _ _ _ _ _ _ _
      _ _ _ _ _ _ _) htv)
    (assoc_get_sparse_filter _ _ _ (build_item_get_s3_key _ _ _ _ _ _ _ _ _ _ _
      _ _ _ _ _ _ _) hkv)]
  refine ⟨by trivial, by trivial, ?_, ?_, ?_⟩
  · exact assoc_put_key_count _ _ _
  · exact assoc_put_key_count _ _ _
  · rw [assoc_get_put_self]
    refine ⟨_, rfl, ?_⟩
    rw [assoc_get_put_self]
    exact manifest_merge_count_id _ _ _ _ rfl

/-- C3 witness: a concrete double ingestion ends with one blob object,
one index record and one manifest entry for the message id. -/
theorem ingest_twice_single_records_witness :
    (((process_email
      { parseaddr := fun s => ("", s), parsedate_iso := fun _ => none,
        iso_to_date := fun _ => some "2024-01-15", re_match := fun _ _ => false }
      { domain_name := none, forwarding_rules := [] }
      { blob_put_fails := false, index_put_fails := false, manifest_read_fails := false,
        manifest_put_fails := false, send_raw_fails := false,
        processed_at := "2024-01-15T11:00:00Z", manifest_now := "2024-01-15T11:00:01Z" }
      { subject := some "hello", fromHdr := some "f@x.com", toHdr := some "t@y.com",
        dateHdr := none, replyTo := none, ccHdr := none, bccHdr := none,
        root := .leaf "text/plain" none none [0x68], raw := [0x68] }
      "m1" "2024-01-15T10:00:00Z" "f@x.com" ["t@y.com"]
      (process_email
        { parseaddr := fun s => ("", s), parsedate_iso := fun _ => none,
          iso_to_date := fun _ => some "2024-01-15", re_match := fun _ _ => false }
        { domain_name := none, forwarding_rules := [] }
        { blob_put_fails := false, index_put_fails := false,
          manifest_read_fails := false, manifest_put_fails := false,
          send_raw_fails := false, processed_at := "2024-01-15T10:00:05Z",
          manifest_now := "2024-01-15T10:00:06Z" }
        { subject := some "hello", fromHdr := some "f@x.com", toHdr := some "t@y.com",
          dateHdr := none, replyTo := none, ccHdr := none, bccHdr := none,
          root := .leaf "text/plain" none none [0x68], raw := [0x68] }
        "m1" "2024-01-15T10:00:00Z" "f@x.com" ["t@y.com"]
        { blob_store := [], index_store := [], manifest_store := [],
          forward_calls := [] }).1).1.index_store.filter
      fun kv => kv.1 == "m1").length = 1) :=
  (ingest_twice_single_records
    { parseaddr := fun s => ("", s), parsedate_iso := fun _ => none,
      iso_to_date := fun _ => some "2024-01-15", re_match := fun _ _ => false }
    { domain_name := none, forwarding_rules := [] }
    { blob_put_fails := false, index_put_fails := false, manifest_read_fails := false,
      manifest_put_fails := false, send_raw_fails := false,
      processed_at := "2024-01-15T10:00:05Z", manifest_now := "2024-01-15T10:00:06Z" }
    { blob_put_fails := false, index_put_fails := false, manifest_read_fails := false,
      manifest_put_fails := false, send_raw_fails := false,
      processed_at := "2024-01-15T11:00:00Z", manifest_now := "2024-01-15T11:00:01Z" }
    { subject := some "hello", fromHdr := some "f@x.com", toHdr := some "t@y.com",
      dateHdr := none, replyTo := none, ccHdr := none, bccHdr := none,
      root := .leaf "text/plain" none none [0x68], raw := [0x68] }
    "m1" "2024-01-15T10:00:00Z" "f@x.com" ["t@y.com"]
    { blob_store := [], index_store := [], manifest_store := [], forward_calls := [] }
    "2024-01-15" "2024" "01" "15"
    rfl rfl rfl rfl rfl rfl rfl rfl (by decide) (by decide)
    (by decide)).2.2.2.1

/-- C9: every field kept by the sparse filter on the index record is
truthy — never null or empty — and every falsy-valued field of the built
record is omitted from the persisted representation entirely. -/
theorem sparse_storage_no_empty_fields
    (mid ts ds subject fa ta cc bcc rt se re pk : String) (sz : Nat)
    (atts : List AttachmentInfo) (bt bh pa : String) (dom : Option String) :
    ((sparse_filter (build_metadata_item mid ts ds subject fa ta cc bcc rt se re pk
      sz atts bt bh pa dom)).all fun kv => kv.2.truthy) = true ∧
    (∀ kv ∈ build_metadata_item mid ts ds subject fa ta cc bcc rt se re pk
        sz atts bt bh pa dom,
      kv.2.truthy = false →
      kv ∉ sparse_filter (build_metadata_item mid ts ds subject fa ta cc bcc rt se re
        pk sz atts bt bh pa dom)) := by
  refine ⟨sparse_filter_all_truthy _, ?_⟩
  intro kv _ hfalse hcontra
  have := (List.mem_filter.mp hcontra).2
  rw [hfalse] at this
  exact Bool.false_ne_true this

/-- C9 witness: a concrete record passes the all-truthy check after the
sparse filter. -/
theorem sparse_storage_no_empty_fields_witness :
    ((sparse_filter (build_metadata_item "m1" "2024-01-15T10:00:00" "2024-01-15"
      "hi" "f@x.com" "t@y.com" "" "" "" "f@x.com" "t@y.com"
      "processed/2024-01-15/m1.eml" 1 [] "" "" "2024-01-15T10:00:05Z"
      none)).all fun kv => kv.2.truthy) = true :=
  (sparse_storage_no_empty_fields "m1" "2024-01-15T10:00:00" "2024-01-15"
    "hi" "f@x.com" "t@y.com" "" "" "" "f@x.com" "t@y.com"
    "processed/2024-01-15/m1.eml" 1 [] "" "" "2024-01-15T10:00:05Z" none).1

/-- C10: for a message with zero attachments the filter drops the boolean
false, the numeric zero and the empty list alike: the stored record has
no has_attachments, attachment_count or attachments key at all. -/
theorem falsy_fields_omitted (root : MimePart)
    (h : extract_attachments_info root = [])
    (mid ts ds subject fa ta cc bcc rt se re pk : String) (sz : Nat)
    (bt bh pa : String) (dom : Option String) :
    assoc_get "has_attachments" (sparse_filter (build_metadata_item mid ts ds subject
      fa ta cc bcc rt se re pk sz (extract_attachments_info root) bt bh pa dom))
      = none ∧
    assoc_get "attachment_count" (sparse_filter (build_metadata_item mid ts ds subject
      fa ta cc bcc rt se re pk sz (extract_attachments_info root) bt bh pa dom))
      = none ∧
    assoc_get "attachments" (sparse_filter (build_metadata_item mid ts ds subject
      fa ta cc bcc rt se re pk sz (extract_attachments_info root) bt bh pa dom))
      = none := by
  rw [h]
  refine ⟨?_, ?_, ?_⟩ <;>
  · apply assoc_get_sparse_filter_none
    intro v hv
    simp only [build_metadata_item, List.mem_cons, List.not_mem_nil, or_false,
      Prod.mk.injEq] at hv
    rcases hv with hv | hv | hv | hv | hv | hv | hv | hv | hv | hv | hv | hv | hv |
      hv | hv | hv | hv | hv | hv | hv | hv <;>
      simp_all [Val.truthy]

/-- C10 witness: a concrete single-part message has no attachments, and
the three keys are absent from its stored record. -/
theorem falsy_fields_omitted_witness :
    extract_attachments_info (.leaf "text/plain" none none [0x68]) = [] ∧
    assoc_get "has_attachments" (sparse_filter (build_metadata_item "m1"
      "2024-01-15T10:00:00" "2024-01-15" "hi" "f@x.com" "t@y.com" "" "" ""
      "f@x.com" "t@y.com" "processed/2024-01-15/m1.eml" 1
      (extract_attachments_info (.leaf "text/plain" none none [0x68])) "h" "h"
      "2024-01-15T10:00:05Z" none)) = none :=
  ⟨rfl,
   (falsy_fields_omitted (.leaf "text/plain" none none [0x68]) rfl "m1"
     "2024-01-15T10:00:00" "2024-01-15" "hi" "f@x.com" "t@y.com" "" "" ""
     "f@x.com" "t@y.com" "processed/2024-01-15/m1.eml" 1 "h" "h"
     "2024-01-15T10:00:05Z" none).1⟩

end EmailSetup
